import Mathlib

/-!
Verification of the staged-write key-value storage adapter
(`database_solved.py`) and the symlink cycle detector (`symlink_solved.py`).

The storage adapter is shallowly embedded as a pure state machine.  The
on-disk storage directory is a finite association list from file names to
file contents; the pending-operation dictionary is an association list that
mirrors the insertion-order semantics of a CPython `dict` (updating an
existing key keeps its position, inserting a new key appends at the end).

SHA-256 (`hashlib.sha256(...).hexdigest()`) is modelled as a parameter
`digest : String → String`: every theorem below is proved for an arbitrary
deterministic digest function, which is strictly more general than the
concrete hash.  `hasher.update(key); hasher.update(value)` hashes the byte
concatenation, so the integrity hash is `digest (key ++ value)`.

The symlink checker is embedded over an abstract snapshot of the symlink
forest: a finite map from paths to raw link targets plus the set of existing
non-symlink nodes.  Paths are segment lists compared syntactically, exactly
as `pathlib.PurePath` equality compares the paths put into `visited`.
-/

namespace DB

/-- Operation tag stored in the pending dictionary: the Python strings
`'update'`, `'delete'`, `'clear'`. -/
inductive OpType
  | update
  | delete
  | clear
deriving DecidableEq

/-- Content of one entry file.  `entry k v h` is a well-formed JSON record
`{'key': k, 'value': v, 'hash': h}`; `corrupt` is any file that fails JSON
parsing or lacks one of the three fields (`json.JSONDecodeError` /
`KeyError`). -/
inductive FileContent
  | entry (key value hsh : String)
  | corrupt
deriving DecidableEq

/-- The storage directory: file name (the digest of the key) paired with the
file content.  Absent names model `FileNotFoundError`. -/
abbrev Disk := List (String × FileContent)

/-- Read the file at path `p`, `none` when no such file exists. -/
def diskRead (d : Disk) (p : String) : Option FileContent :=
  (d.find? (fun e => e.1 == p)).map (fun e => e.2)

/-- Write (create or overwrite) the file at path `p`. -/
def diskWrite (d : Disk) (p : String) (c : FileContent) : Disk :=
  (p, c) :: d.filter (fun e => e.1 != p)

/-- Remove the file at path `p`. -/
def diskErase (d : Disk) (p : String) : Disk :=
  d.filter (fun e => e.1 != p)

/-- One pending-dictionary binding: stringified key, operation tag, optional
value (`None` for delete and clear). -/
abbrev Pending := List (String × OpType × Option String)

/-- Python `key in dict`. -/
def hasKey (m : Pending) (k : String) : Bool :=
  m.any (fun e => e.1 == k)

/-- Python `dict[k]` as an option. -/
def dictGet (m : Pending) (k : String) : Option (OpType × Option String) :=
  (m.find? (fun e => e.1 == k)).map (fun e => e.2)

/-- Python `dict[k] = v`: replace in place when the key is present, append
otherwise (insertion order is preserved, as in CPython dicts). -/
def dictSet (m : Pending) (k : String) (v : OpType × Option String) : Pending :=
  if hasKey m k then m.map (fun e => if e.1 == k then (k, v) else e)
  else m ++ [(k, v)]

/-- Python `dict.pop(k)` (the removal part). -/
def dictPop (m : Pending) (k : String) : Pending :=
  m.filter (fun e => e.1 != k)

/-- State of one `StorageAdapter`: `_storage_directory` contents and
`_pending_operations`. -/
structure AdapterState where
  disk : Disk
  pending : Pending
deriving DecidableEq

/-- `StorageAdapter._get_file_path`: the file name for a key is the digest of
the stringified key (the fixed directory prefix is implicit). -/
def get_file_path (digest : String → String) (key : String) : String :=
  digest key

/-- `StorageAdapter._compute_value_hash`: feeding `key` then `value` to one
hasher digests the concatenation of their bytes. -/
def compute_value_hash (digest : String → String) (key value : String) : String :=
  digest (key ++ value)

/-- `StorageAdapter._load_from_file`: parse the file at `p`; on
`FileNotFoundError`, parse failure or missing field return `none`; otherwise
check the stored hash against `digest(key ++ value)` recomputed from the
stored fields and return the record only when they agree. -/
def load_from_file (digest : String → String) (d : Disk) (p : String) :
    Option (String × String × String) :=
  match diskRead d p with
  | some (FileContent.entry k v h) =>
      if h = compute_value_hash digest k v then some (k, v, h) else none
  | some FileContent.corrupt => none
  | none => none

/-- `StorageAdapter.get`: when a `'delete'` is staged for the key, re-read the
still-on-disk entry; in every other case (no staged operation, or a staged
`'update'` or `'clear'`) fall through to the same on-disk read. -/
def get (digest : String → String) (s : AdapterState) (key : String) :
    Option String :=
  match dictGet s.pending key with
  | some (OpType.delete, _) =>
      (load_from_file digest s.disk (get_file_path digest key)).map
        (fun r => r.2.1)
  | _ =>
      (load_from_file digest s.disk (get_file_path digest key)).map
        (fun r => r.2.1)

/-- `StorageAdapter.update`: stage `('update', value)` for the key. -/
def update (s : AdapterState) (key value : String) : AdapterState :=
  { s with pending := dictSet s.pending key (OpType.update, some value) }

/-- `StorageAdapter.delete`: stage `('delete', None)` for the key. -/
def delete (s : AdapterState) (key : String) : AdapterState :=
  { s with pending := dictSet s.pending key (OpType.delete, none) }

/-- `StorageAdapter.clear`: drop all staged operations
(`_pending_operations.clear()`), then stage `('clear', None)` under the
reserved key `'__clear__'`. -/
def clear (s : AdapterState) : AdapterState :=
  { s with pending := dictSet [] "__clear__" (OpType.clear, none) }

/-- `StorageAdapter.rollback`: drop all staged operations. -/
def rollback (s : AdapterState) : AdapterState :=
  { s with pending := [] }

/-- Python `str(value)` on an `Optional[str]`: `str(None)` is the text
`"None"`. -/
def strOpt (v : Option String) : String :=
  v.getD "None"

/-- Body of the commit loop for one staged operation: `'update'` writes the
record `{key, value, hash}` at the key's digest path; `'delete'` unlinks the
file only when it exists; a `'clear'` tag matches neither branch and does
nothing. -/
def applyOp (digest : String → String) (d : Disk) (key : String)
    (op : OpType) (v : Option String) : Disk :=
  match op with
  | OpType.update =>
      diskWrite d (get_file_path digest key)
        (FileContent.entry key (strOpt v)
          (compute_value_hash digest key (strOpt v)))
  | OpType.delete =>
      if (diskRead d (get_file_path digest key)).isSome then
        diskErase d (get_file_path digest key)
      else d
  | OpType.clear => d

/-- The commit loop applied to a whole pending list, in insertion order. -/
def applyOps (digest : String → String) (d : Disk) (ops : Pending) : Disk :=
  ops.foldl (fun acc e => applyOp digest acc e.1 e.2.1 e.2.2) d

/-- First phase of `StorageAdapter.commit`: when the wipe marker `'__clear__'`
is a key of the pending dictionary, remove the whole directory tree, recreate
it empty, and pop the marker.  (The subsequent directory-shape checks of the
Python code are identities here: the model keeps the storage directory a
directory.) -/
def markerStep (s : AdapterState) : AdapterState :=
  if hasKey s.pending "__clear__" then
    { disk := [], pending := dictPop s.pending "__clear__" }
  else s

/-- `StorageAdapter.commit` on a run where no OS error occurs: wipe if the
marker is staged, apply every remaining staged operation in insertion order,
then clear the pending dictionary. -/
def commit (digest : String → String) (s : AdapterState) : AdapterState :=
  { disk := applyOps digest (markerStep s).disk (markerStep s).pending,
    pending := [] }

/-- The commit loop with an injected OS-level fault: `fail = some i` makes
the body of the `i`-th iteration raise (`write_text` / `unlink` failing with
`OSError`), which the `except` clause logs and re-raises.  `Except.error d`
is the raised exception together with the directory contents at that moment;
the trailing `pending.clear()` of `commit` is then never reached. -/
def commitLoop (digest : String → String) (fail : Option Nat) (d : Disk) :
    Pending → Nat → Except Disk Disk
  | [], _ => Except.ok d
  | e :: rest, i =>
      if fail = some i then Except.error d
      else commitLoop digest fail (applyOp digest d e.1 e.2.1 e.2.2) rest (i + 1)

/-- `StorageAdapter.commit` with an injected OS fault at loop index `fail`:
on the error path the pending dictionary keeps the value it had when the
loop started (after the wipe marker, if any, was consumed). -/
def commitFail (digest : String → String) (fail : Option Nat)
    (s : AdapterState) : Except AdapterState AdapterState :=
  match commitLoop digest fail (markerStep s).disk (markerStep s).pending 0 with
  | Except.ok d => Except.ok { disk := d, pending := [] }
  | Except.error d => Except.error { disk := d, pending := (markerStep s).pending }

/-- `StorageAdapter.__exit__`: commit when the scope exited normally
(`exc_type is None`), roll back when it exited with an exception. -/
def exitScope (digest : String → String) (excRaised : Bool)
    (s : AdapterState) : AdapterState :=
  if excRaised then rollback s else commit digest s

/-- The on-disk, hash-verified value visible for a key, ignoring the staging
overlay: what `get` returns on an adapter with no pending operations. -/
def diskValue (digest : String → String) (d : Disk) (key : String) :
    Option String :=
  (load_from_file digest d (get_file_path digest key)).map (fun r => r.2.1)

/-- One staging-only call of the public interface: `update`, `delete`,
`clear` or `rollback`. -/
inductive StageCall
  | upd (k v : String)
  | del (k : String)
  | clr
  | rb

/-- Run one staging-only call. -/
def runStage (s : AdapterState) : StageCall → AdapterState
  | StageCall.upd k v => update s k v
  | StageCall.del k => delete s k
  | StageCall.clr => clear s
  | StageCall.rb => rollback s

/-- Run a sequence of staging-only calls. -/
def runStages (s : AdapterState) (cs : List StageCall) : AdapterState :=
  cs.foldl runStage s

/-- A concrete digest instance used to evaluate the theorems on explicit
inputs (any function of the right type works, since the theorems hold for
every digest). -/
def idDigest : String → String := fun s => s

end DB

namespace Symlink

/-- Paths as segment lists; `pathlib` compares the paths stored in `visited`
syntactically, so the model does too. -/
abbrev Path := List String

/-- A raw symlink target as returned by `readlink`: either absolute or
relative to the link's parent directory. -/
inductive Target
  | abs (p : Path)
  | rel (q : Path)
deriving DecidableEq

/-- A snapshot of the filesystem as the checker sees it: the symlinks with
their raw targets, and the existing non-symlink nodes. -/
structure SymFS where
  links : List (Path × Target)
  reals : List Path
deriving DecidableEq

/-- Python `p.readlink()`: the raw target when `p` is a symlink. -/
def lookupLink (fs : SymFS) (p : Path) : Option Target :=
  (fs.links.find? (fun e => e.1 == p)).map (fun e => e.2)

/-- Python `p.is_symlink()`. -/
def isSymlink (fs : SymFS) (p : Path) : Bool :=
  (lookupLink fs p).isSome

/-- Existence of a non-symlink node at `p`. -/
def isReal (fs : SymFS) (p : Path) : Bool :=
  fs.reals.any (fun q => q == p)

/-- Python `not p.exists() and not p.is_symlink()`.  `Path.exists()` follows
symlinks, so it is only decision-relevant when `p` is not a symlink (when `p`
is a symlink the second conjunct already makes the conjunction false), and on
a non-symlink it is plain node existence. -/
def missingNonLink (fs : SymFS) (p : Path) : Bool :=
  !(isSymlink fs p) && !(isReal fs p)

/-- Resolve a raw target against the link's location: absolute targets stand,
relative targets are joined onto `current_path.parent`. -/
def resolveTarget (current : Path) (t : Target) : Path :=
  match t with
  | Target.abs p => p
  | Target.rel q => current.dropLast ++ q

/-- The `while True` walk of `is_circular_symlink`, with explicit fuel
(`none` = fuel exhausted; `walk_total` below shows the fuel used by
`is_circular_symlink` is never exhausted).  One iteration: read the link
target (the `none` branch mirrors the `except ... return False` clause and is
unreachable, since `current` is always a symlink); resolve it; a revisited
resolved path reports a cycle; a missing non-link target is dangling
(`False`); an existing non-link target terminates the chain (`False`);
otherwise continue from the resolved path after recording it as visited. -/
def walk (fs : SymFS) : Nat → List Path → Path → Option Bool
  | 0, _, _ => none
  | fuel + 1, visited, current =>
      match lookupLink fs current with
      | none => some false
      | some t =>
          if resolveTarget current t ∈ visited then some true
          else if missingNonLink fs (resolveTarget current t) then some false
          else if !(isSymlink fs (resolveTarget current t)) then some false
          else walk fs fuel (resolveTarget current t :: visited) (resolveTarget current t)

/-- The two error conditions: `FileNotFoundError` (NotFound) and
`RuntimeError` (InvalidArgument). -/
inductive SymErr
  | notFound
  | invalidArgument
deriving DecidableEq

/-- `is_circular_symlink`: NotFound when the path neither exists nor is a
symlink; InvalidArgument when it exists but is not a symlink; otherwise the
chain walk.  The fuel `links.length + 1` suffices by `walk_total`, so the
fallback arm is unreachable. -/
def is_circular_symlink (fs : SymFS) (p : Path) : Except SymErr Bool :=
  if missingNonLink fs p then Except.error SymErr.notFound
  else if !(isSymlink fs p) then Except.error SymErr.invalidArgument
  else
    match walk fs (fs.links.length + 1) [] p with
    | some b => Except.ok b
    | none => Except.ok false

/-- The predicate "not yet visited" used for the termination measure. -/
def unvisP (visited : List Path) : Path → Bool :=
  fun q => !(visited.contains q)

/-- Termination measure of the walk: how many symlink source paths are not in
the visited set yet. -/
def unvisitedLinks (fs : SymFS) (visited : List Path) : Nat :=
  (fs.links.map (fun e => e.1)).countP (unvisP visited)

end Symlink

namespace DB

/-- Every branch of `get` performs the same hash-verified disk read: the
staging overlay never changes what `get` returns. -/
theorem get_eq_diskValue (digest : String → String) (s : AdapterState) (k : String) :
    get digest s k = diskValue digest s.disk k := by
  unfold get diskValue
  split <;> rfl

/-- C1 (amended): for a key other than the reserved wipe marker `"__clear__"`
and an adapter with nothing staged, `update(k, v); commit(); get(k)` returns
`v`, for every digest function, starting disk state, key and value. -/
theorem roundtrip_commit_get (digest : String → String) (s : AdapterState)
    (k v : String) (hp : s.pending = []) (hk : k ≠ "__clear__") :
    get digest (commit digest (update s k v)) k = some v := by
  have hk2 : (k == "__clear__") = false := beq_eq_false_iff_ne.mpr hk
  rw [get_eq_diskValue]
  simp [update, hp, dictSet, hasKey, commit, markerStep, applyOps, applyOp,
    diskValue, load_from_file, diskRead, diskWrite, get_file_path,
    compute_value_hash, strOpt, hk2, List.find?]

/-- Witness for C1: the round trip evaluated at a concrete input. -/
theorem roundtrip_commit_get_witness :
    ((⟨[], []⟩ : AdapterState).pending = [] ∧ "k" ≠ "__clear__") ∧
    get idDigest (commit idDigest (update ⟨[], []⟩ "k" "v")) "k" = some "v" :=
  ⟨⟨rfl, by decide⟩, roundtrip_commit_get idDigest ⟨[], []⟩ "k" "v" rfl (by decide)⟩

/-- Counterexample to C1 as stated ("for every text key"): for the key
`"__clear__"`, `update; commit; get` returns `none`, not the written value
`"x"`, because `commit` takes the staged entry for the key `'__clear__'` to
be the wipe marker, wipes the store and discards the update. -/
theorem roundtrip_reserved_key_cex :
    get idDigest (commit idDigest (update ⟨[], []⟩ "__clear__" "x")) "__clear__" = none := by
  rfl

/-- C2: before commit, `get` never reflects a staged update — after
`update(k, v)` it still returns the on-disk committed value (never `v` when
`v` is not that value); and with a staged delete it returns the value
currently on disk. -/
theorem staged_isolation_get (digest : String → String) (s : AdapterState)
    (k v : String) :
    get digest (update s k v) k = diskValue digest s.disk k ∧
    (diskValue digest s.disk k ≠ some v → get digest (update s k v) k ≠ some v) ∧
    get digest (delete s k) k = diskValue digest s.disk k := by
  refine ⟨?_, ?_, ?_⟩
  · rw [get_eq_diskValue]
    rfl
  · intro h
    rw [get_eq_diskValue]
    exact h
  · rw [get_eq_diskValue]
    rfl

/-- The commit loop raising at iteration `j + i` applies exactly the first
`i` operations and then returns the error with the disk at that point. -/
theorem commitLoop_error (digest : String → String) :
    ∀ (ops : Pending) (d : Disk) (j i : Nat), i < ops.length →
      commitLoop digest (some (j + i)) d ops j =
        Except.error (applyOps digest d (ops.take i)) := by
  intro ops
  induction ops with
  | nil =>
      intro d j i h
      exact absurd h (by simp)
  | cons e rest ih =>
      intro d j i h
      cases i with
      | zero => simp [commitLoop, applyOps]
      | succ i2 =>
          have hne : ¬ (some (j + (i2 + 1)) = some j : Prop) := by
            intro hc
            have h3 := Option.some.inj hc
            omega
          simp only [commitLoop]
          rw [if_neg hne]
          have h4 : j + (i2 + 1) = (j + 1) + i2 := by omega
          rw [h4]
          have h2 : i2 < rest.length := by simpa using Nat.lt_of_succ_lt_succ h
          rw [ih (applyOp digest d e.1 e.2.1 e.2.2) (j + 1) i2 h2]
          simp [applyOps, List.take]

/-- The commit loop with no injected fault applies every operation. -/
theorem commitLoop_ok (digest : String → String) :
    ∀ (ops : Pending) (d : Disk) (j : Nat),
      commitLoop digest none d ops j = Except.ok (applyOps digest d ops) := by
  intro ops
  induction ops with
  | nil =>
      intro d j
      simp [commitLoop, applyOps]
  | cons e rest ih =>
      intro d j
      simp only [commitLoop]
      rw [if_neg (by simp)]
      rw [ih]
      simp [applyOps]

/-- Coherence: the fault-injectable commit with no fault is the plain commit. -/
theorem commitFail_none (digest : String → String) (s : AdapterState) :
    commitFail digest none s = Except.ok (commit digest s) := by
  unfold commitFail commit
  rw [commitLoop_ok]

/-- C3: an OS error at the `i`-th staged operation re-raises: the resulting
state has exactly the operations before the failing one applied (the rest of
the batch is not applied and nothing is rolled back), and the pending set is
the one the loop started from, not cleared. -/
theorem commit_fault_stops_batch (digest : String → String) (s : AdapterState)
    (i : Nat) (h : i < (markerStep s).pending.length) :
    commitFail digest (some i) s =
      Except.error
        { disk := applyOps digest (markerStep s).disk ((markerStep s).pending.take i),
          pending := (markerStep s).pending } := by
  unfold commitFail
  have h5 := commitLoop_error digest (markerStep s).pending (markerStep s).disk 0 i h
  rw [Nat.zero_add] at h5
  rw [h5]

/-- Witness for C3: a three-update batch failing at index 1 keeps the first
write, skips the rest, and keeps the pending set. -/
theorem commit_fault_stops_batch_witness :
    1 < (markerStep ⟨[], [("a", (OpType.update, some "1")),
        ("b", (OpType.update, some "2")),
        ("c", (OpType.update, some "3"))]⟩).pending.length ∧
    commitFail idDigest (some 1)
        ⟨[], [("a", (OpType.update, some "1")),
          ("b", (OpType.update, some "2")),
          ("c", (OpType.update, some "3"))]⟩ =
      Except.error
        { disk := applyOps idDigest
            (markerStep ⟨[], [("a", (OpType.update, some "1")),
              ("b", (OpType.update, some "2")),
              ("c", (OpType.update, some "3"))]⟩).disk
            ((markerStep ⟨[], [("a", (OpType.update, some "1")),
              ("b", (OpType.update, some "2")),
              ("c", (OpType.update, some "3"))]⟩).pending.take 1),
          pending := (markerStep ⟨[], [("a", (OpType.update, some "1")),
            ("b", (OpType.update, some "2")),
            ("c", (OpType.update, some "3"))]⟩).pending } :=
  ⟨by decide, commit_fault_stops_batch idDigest ⟨[], [("a", (OpType.update, some "1")),
    ("b", (OpType.update, some "2")),
    ("c", (OpType.update, some "3"))]⟩ 1 (by decide)⟩

/-- C4: `clear()` replaces everything staged by the single wipe marker;
`clear(); commit()` leaves the store empty, and an update staged before the
clear does not survive the commit. -/
theorem clear_commit_empties_store (digest : String → String) (s : AdapterState)
    (k v : String) :
    (clear s).pending = [("__clear__", (OpType.clear, none))] ∧
    commit digest (clear s) = ⟨[], []⟩ ∧
    commit digest (clear (update s k v)) = ⟨[], []⟩ ∧
    get digest (commit digest (clear (update s k v))) k = none :=
  ⟨rfl, rfl, rfl, rfl⟩

/-- C5: a scope that exits with an exception rolls back — the disk is
untouched, no staged mutation survives, and a later commit of the resulting
state writes nothing; a scope that exits normally commits: it applies the
whole staged batch once and leaves the pending set empty. -/
theorem scoped_transaction_exit (digest : String → String) (s : AdapterState) :
    (exitScope digest true s).disk = s.disk ∧
    (exitScope digest true s).pending = [] ∧
    commit digest (exitScope digest true s) = ⟨s.disk, []⟩ ∧
    exitScope digest false s = commit digest s ∧
    (exitScope digest false s).disk =
      applyOps digest (markerStep s).disk (markerStep s).pending ∧
    (commit digest s).pending = [] :=
  ⟨rfl, rfl, rfl, rfl, rfl, rfl⟩

/-- C6: a stored entry whose hash field differs from `digest(key ++ value)`,
a corrupt (unparseable or incomplete) file, and a missing file all make
`get` return the same absent result `none`, whatever is staged. -/
theorem corrupt_entry_invisible (digest : String → String) (s : AdapterState)
    (k : String) :
    (∀ k2 v2 h2, diskRead s.disk (get_file_path digest k) =
        some (FileContent.entry k2 v2 h2) →
      h2 ≠ compute_value_hash digest k2 v2 → get digest s k = none) ∧
    (diskRead s.disk (get_file_path digest k) = some FileContent.corrupt →
      get digest s k = none) ∧
    (diskRead s.disk (get_file_path digest k) = none → get digest s k = none) := by
  refine ⟨?_, ?_, ?_⟩ <;> rw [get_eq_diskValue] <;> unfold diskValue load_from_file
  · intro k2 v2 h2 hread hne
    rw [hread]
    simp [hne]
  · intro hread
    rw [hread]
    rfl
  · intro hread
    rw [hread]
    rfl

/-- C9: `update`, `delete`, `clear` and `rollback` perform no disk write: any
sequence of staging-only calls leaves the storage directory unchanged. -/
theorem staging_touches_no_disk (s : AdapterState) (cs : List StageCall) :
    (runStages s cs).disk = s.disk := by
  induction cs generalizing s with
  | nil => rfl
  | cons c cs ih =>
      have hstep : (runStage s c).disk = s.disk := by cases c <;> rfl
      calc (runStages s (c :: cs)).disk
          = (runStages (runStage s c) cs).disk := rfl
        _ = (runStage s c).disk := ih (runStage s c)
        _ = s.disk := hstep

/-- C10 (amended): `update("__clear__", v)` or `delete("__clear__")` after
`clear()` does replace the staged wipe entry in the pending map, but
`commit()` still recognizes the key `'__clear__'` as the wipe marker: it
wipes the store and pops the entry, so the per-key operation is discarded
without ever being applied and the store ends empty. -/
theorem reserved_key_collision (digest : String → String) (s : AdapterState)
    (v : String) :
    (update (clear s) "__clear__" v).pending =
      [("__clear__", (OpType.update, some v))] ∧
    (delete (clear s) "__clear__").pending =
      [("__clear__", (OpType.delete, none))] ∧
    commit digest (update (clear s) "__clear__" v) = ⟨[], []⟩ ∧
    commit digest (delete (clear s) "__clear__") = ⟨[], []⟩ :=
  ⟨rfl, rfl, rfl, rfl⟩

/-- Counterexample to C10 as stated: from a store holding a visible entry,
`clear(); update("__clear__", "v"); commit()` does wipe the store (the prior
entry is gone) and does not apply the update at the digest of `"__clear__"`
(reading it back gives `none`). -/
theorem reserved_key_collision_cex :
    get idDigest
      ⟨[("other", FileContent.entry "other" "o" "othero")], []⟩ "other" = some "o" ∧
    commit idDigest
      (update (clear ⟨[("other", FileContent.entry "other" "o" "othero")], []⟩)
        "__clear__" "v") = ⟨[], []⟩ ∧
    get idDigest
      (commit idDigest
        (update (clear ⟨[("other", FileContent.entry "other" "o" "othero")], []⟩)
          "__clear__" "v")) "__clear__" = none :=
  ⟨rfl, rfl, rfl⟩

end DB

namespace Symlink

/-- Shrinking the unvisited set: a path visited now satisfied the old
predicate but not the new one. -/
theorem unvisP_mono (visited : List Path) (tp : Path) :
    ∀ x : Path, unvisP (tp :: visited) x = true → unvisP visited x = true := by
  intro x hx
  unfold unvisP at hx ⊢
  rw [Bool.not_eq_true'] at hx ⊢
  rw [List.contains_cons] at hx
  exact (Bool.or_eq_false_iff.mp hx).2

/-- Adding a not-yet-visited link source to the visited set strictly
decreases the count of unvisited elements of any list containing it. -/
theorem countP_visit_lt (visited : List Path) (tp : Path) (hnv : tp ∉ visited) :
    ∀ l : List Path, tp ∈ l →
      l.countP (unvisP (tp :: visited)) < l.countP (unvisP visited) := by
  intro l
  induction l with
  | nil =>
      intro h
      exact absurd h (List.not_mem_nil tp)
  | cons a l ih =>
      intro hmem
      rw [List.countP_cons, List.countP_cons]
      by_cases heq : a = tp
      · subst heq
        have h1 : unvisP (a :: visited) a = false := by
          simp [unvisP, List.contains_cons]
        have h2 : unvisP visited a = true := by
          simp [unvisP, List.elem_iff]
          exact hnv
        rw [h1, h2]
        have hm2 : List.countP (unvisP (a :: visited)) l ≤
            List.countP (unvisP visited) l :=
          List.countP_mono_left (fun x _ => unvisP_mono visited a x)
        simp
        omega
      · have hmem2 : tp ∈ l := by
          rcases List.mem_cons.mp hmem with h | h
          · exact absurd h.symm heq
          · exact h
        have hlt := ih hmem2
        have hle : (if unvisP (tp :: visited) a = true then 1 else 0) ≤
            (if unvisP visited a = true then 1 else 0) := by
          by_cases hpa : unvisP (tp :: visited) a = true
          · rw [if_pos hpa, if_pos (unvisP_mono visited tp a hpa)]
          · rw [if_neg hpa]
            exact Nat.zero_le _
        omega

/-- Any fuel exceeding the number of unvisited link sources makes the walk
return an answer: every iteration either answers or moves to a symlink not
yet visited, shrinking the measure. -/
theorem walk_total (fs : SymFS) :
    ∀ (fuel : Nat) (visited : List Path) (current : Path),
      unvisitedLinks fs visited < fuel → (walk fs fuel visited current).isSome := by
  intro fuel
  induction fuel with
  | zero =>
      intro visited current h
      exact absurd h (by omega)
  | succ fuel ih =>
      intro visited current h
      rw [walk]
      rcases hl : lookupLink fs current with _ | t
      · simp
      · simp only
        by_cases hv : resolveTarget current t ∈ visited
        · simp [hv]
        · rw [if_neg hv]
          by_cases hm : missingNonLink fs (resolveTarget current t)
          · simp [hm]
          · rw [if_neg (by simpa using hm)]
            by_cases hs : isSymlink fs (resolveTarget current t)
            · rw [hs]
              simp only [Bool.not_true, if_false]
              apply ih
              have hmem : resolveTarget current t ∈ fs.links.map (fun e => e.1) := by
                have hsome : (lookupLink fs (resolveTarget current t)).isSome := hs
                rw [lookupLink] at hsome
                rcases hf : fs.links.find? (fun e => e.1 == resolveTarget current t)
                    with _ | e
                · rw [hf] at hsome
                  simp at hsome
                · have hin := List.mem_of_find?_eq_some hf
                  have hbeq := List.find?_some hf
                  have he : e.1 = resolveTarget current t := by simpa using hbeq
                  exact he ▸ List.mem_map_of_mem (fun e => e.1) hin
              have hlt := countP_visit_lt visited (resolveTarget current t) hv
                (fs.links.map (fun e => e.1)) hmem
              unfold unvisitedLinks at *
              omega
            · rw [Bool.not_eq_true] at hs
              rw [hs]
              simp

/-- C8: the walk terminates on every finite input within fuel linear in the
number of symlinks — in particular with the `links.length + 1` fuel that
`is_circular_symlink` uses, whose result is then the walk's answer on valid
inputs.  The bound holds because each iteration records the resolved target
in the visited set and a revisited path answers at once. -/
theorem cycle_walk_terminates (fs : SymFS) (p : Path) :
    (walk fs (fs.links.length + 1) [] p).isSome ∧
    (∀ (fuel : Nat) (visited : List Path) (current : Path),
      unvisitedLinks fs visited < fuel → (walk fs fuel visited current).isSome) ∧
    (isSymlink fs p = true → missingNonLink fs p = false →
      ∃ b, walk fs (fs.links.length + 1) [] p = some b ∧
        is_circular_symlink fs p = Except.ok b) := by
  have htot : (walk fs (fs.links.length + 1) [] p).isSome := by
    apply walk_total
    have hle : unvisitedLinks fs [] ≤ fs.links.length := by
      unfold unvisitedLinks
      calc (fs.links.map (fun e => e.1)).countP (unvisP [])
          ≤ (fs.links.map (fun e => e.1)).length := List.countP_le_length _
        _ = fs.links.length := List.length_map _ _
    omega
  refine ⟨htot, walk_total fs, ?_⟩
  intro hs hm
  rcases Option.isSome_iff_exists.mp htot with ⟨b, hb⟩
  refine ⟨b, hb, ?_⟩
  simp [is_circular_symlink, hm, hs, hb]

/-- C7: the checker fails with NotFound on a path that neither exists nor is
a symlink, fails with InvalidArgument on an existing non-symlink, answers
`true` on a two-link mutual chain `a -> b -> a`, and answers `false` both
when the chain ends at a real node and when it ends at a missing target. -/
theorem cycle_detector_contract (fs : SymFS) (p : Path) (a b : Path)
    (hab : a ≠ b) :
    (missingNonLink fs p = true →
      is_circular_symlink fs p = Except.error SymErr.notFound) ∧
    (isReal fs p = true → isSymlink fs p = false →
      is_circular_symlink fs p = Except.error SymErr.invalidArgument) ∧
    is_circular_symlink ⟨[(a, Target.abs b), (b, Target.abs a)], []⟩ a =
      Except.ok true ∧
    is_circular_symlink ⟨[(a, Target.abs b)], [b]⟩ a = Except.ok false ∧
    is_circular_symlink ⟨[(a, Target.abs b)], []⟩ a = Except.ok false := by
  have hab2 : (a == b) = false := beq_eq_false_iff_ne.mpr hab
  have hba : (b == a) = false := beq_eq_false_iff_ne.mpr (Ne.symm hab)
  refine ⟨?_, ?_, ?_, ?_, ?_⟩
  · intro h
    simp [is_circular_symlink, h]
  · intro h1 h2
    simp [is_circular_symlink, missingNonLink, h1, h2]
  · simp [is_circular_symlink, missingNonLink, isSymlink, isReal, lookupLink,
      resolveTarget, walk, List.find?, hab2, hba, hab, Ne.symm hab]
  · simp [is_circular_symlink, missingNonLink, isSymlink, isReal, lookupLink,
      resolveTarget, walk, List.find?, hab2, hba, hab, Ne.symm hab]
  · simp [is_circular_symlink, missingNonLink, isSymlink, isReal, lookupLink,
      resolveTarget, walk, List.find?, hab2, hba, hab, Ne.symm hab]

/-- Witness for C7: the four behaviours at concrete paths. -/
theorem cycle_detector_contract_witness :
    is_circular_symlink ⟨[((["A"] : Path), Target.abs ["B"]),
        (["B"], Target.abs ["A"])], []⟩ ["A"] = Except.ok true ∧
    is_circular_symlink ⟨[((["A"] : Path), Target.abs ["B"])], [["B"]]⟩ ["A"] =
      Except.ok false ∧
    is_circular_symlink (⟨[], []⟩ : SymFS) ["P"] = Except.error SymErr.notFound ∧
    is_circular_symlink (⟨[], [["P"]]⟩ : SymFS) ["P"] =
      Except.error SymErr.invalidArgument :=
  ⟨(cycle_detector_contract ⟨[], []⟩ [] ["A"] ["B"] (by decide)).2.2.1,
   (cycle_detector_contract ⟨[], []⟩ [] ["A"] ["B"] (by decide)).2.2.2.1,
   (cycle_detector_contract ⟨[], []⟩ ["P"] ["A"] ["B"] (by decide)).1 (by decide),
   (cycle_detector_contract ⟨[], [["P"]]⟩ ["P"] ["A"] ["B"] (by decide)).2.1
     (by decide) (by decide)⟩

end Symlink
